import Mathlib

/-!
Credential resolution client of the wocloud IAM plug-in.

A shallow embedding of `plugins/wocloud_iam_plugin.go`: the two operations
`Client.GetKeysByUid` (paginated enumeration) and `Client.GetCredential`
(single key lookup), together with the request they build and the way they
interpret the answer of the transport.

Conventions of the embedding.

* Go `int` is a 64-bit signed integer; it is an `Int` here and the one
  addition the code performs on it goes through `wrapInt`.
* The transport `a.httpClient.Do` is a state machine: from its current state
  and a request it yields an answer and a next state.  An answer is an error,
  a response, or `hang` (the call never returns).
* `json.Unmarshal` and the URL check of `http.NewRequest` belong to the Go
  standard library; they are the two fields of `Lib`.
* The `for` loop of `GetKeysByUid` has no bound in the source, so the
  embedding takes a number of iterations it may run (`fuel`); `none` means
  that the loop is still running after that many iterations.
* Logging (`slog.Println`), `defer response.Body.Close()` and the goroutine
  of `GetCredential`, which only logs, do not influence a result and are left
  out.  `json.Marshal` cannot fail on a `Query`, so its error branch is dead.
-/

namespace Wocloud

/-! ## Machine integers -/

/-- Two's complement wrap-around of a 64-bit Go `int`. -/
def wrapInt (x : Int) : Int :=
  (x + 9223372036854775808) % 18446744073709551616 - 9223372036854775808

/-! ## Data model -/

/-- Go: `type AccessKeyItem struct`. -/
structure AccessKeyItem where
  ProjectId : String
  Name : String
  AccessKey : String
  AccessSecret : String
  Status : String
  Updated : String
  deriving DecidableEq, Repr

/-- Go: `type Query struct`. -/
structure Query where
  Action : String
  ProjectId : String
  AccessKeys : List String
  Offset : Int
  deriving DecidableEq, Repr

/-- Go: `type QueryResp struct`. -/
structure QueryResp where
  Limit : Int
  Total : Int
  Offset : Int
  AccessKeySet : List AccessKeyItem
  deriving DecidableEq, Repr

/-- Go: `type QueryRespAll struct`. -/
structure QueryRespAll where
  Message : String
  Data : QueryResp
  RetCode : Int
  deriving DecidableEq, Repr

/-- Modelled from the spec: `common.Credential`, declared in package
`iam/common` outside the sources at hand.  The spec lists the five fields
identityId, displayName, accessKeyId, secretAccessKey and
allowDelegatedAccess; they carry the names the plug-in assigns to. -/
structure Credential where
  UserId : String
  DisplayName : String
  AccessKeyID : String
  SecretAccessKey : String
  AllowOtherUserAccess : Bool
  deriving DecidableEq, Repr

/-- The zero value of a Go `common.Credential`. -/
def Credential.zero : Credential :=
  { UserId := "", DisplayName := "", AccessKeyID := "", SecretAccessKey := "",
    AllowOtherUserAccess := false }

/-- Error values.  `errorsNew` is a value made by `errors.New` or
`fmt.Errorf` in the plug-in, `library` one handed over by `net/http` or
`io/ioutil`, and `ErrAccessKeyNotExist` is `common.ErrAccessKeyNotExist`. -/
inductive GoError where
  | errorsNew (msg : String)
  | library (msg : String)
  | ErrAccessKeyNotExist
  deriving DecidableEq, Repr

/-- The JSON object that `json.Marshal(query)` writes: with `omitempty` a
field holding the empty string, the empty slice or zero is absent. -/
structure Wire where
  action : String
  projectId : Option String
  accessKeys : Option (List String)
  offset : Option Int
  deriving DecidableEq, Repr

/-- Go: `json.Marshal(query)` under the struct tags of `Query`. -/
def marshal (q : Query) : Wire :=
  { action := q.Action
    projectId := if q.ProjectId = "" then none else some q.ProjectId
    accessKeys := if q.AccessKeys = [] then none else some q.AccessKeys
    offset := if q.Offset = 0 then none else some q.Offset }

/-- The offset a server reads from a request body: an absent field is 0. -/
def Wire.offsetValue (w : Wire) : Int := w.offset.getD 0

/-- The identity filter a server reads: an absent field is the empty string. -/
def Wire.projectIdValue (w : Wire) : String := w.projectId.getD ""

/-- An `*http.Request` as far as the plug-in builds it.  `timeout` is the
deadline, in seconds, of the context attached with `WithContext`. -/
structure Request where
  method : String
  url : String
  header : List (String × String)
  body : Wire
  timeout : Option Nat
  deriving DecidableEq, Repr

/-- Go: `request.Header.Set(key, value)`: the value replaces the one stored
under the key, if any. -/
def Request.headerSet (r : Request) (key value : String) : Request :=
  { r with header := (r.header.filter (fun kv => kv.1 != key)) ++ [(key, value)] }

/-- Go: `request.Header.Get(key)`, the empty string when the key is absent. -/
def Request.headerGet (r : Request) (key : String) : String :=
  match r.header.find? (fun kv => kv.1 == key) with
  | some kv => kv.2
  | none => ""

/-- Go: `request.WithContext(ctx)` for a context with a deadline. -/
def Request.withTimeout (r : Request) (seconds : Nat) : Request :=
  { r with timeout := some seconds }

/-- What `ioutil.ReadAll(response.Body)` yields. -/
inductive BodyRead (Body : Type) where
  | readErr (e : GoError)
  | data (b : Body)

/-- What one call of `a.httpClient.Do(request)` does: it returns an error,
returns a response, or never returns. -/
inductive DoResult (Body : Type) where
  | err (e : GoError)
  | hang
  | response (status : Int) (body : BodyRead Body)

/-- The library functions the plug-in calls: `json.Unmarshal(body,
&queryRetAll)` (`none` when it returns an error) and the URL check of
`http.NewRequest` (`some e` when the endpoint does not parse). -/
structure Lib (Body : Type) where
  unmarshal : Body → Option QueryRespAll
  urlErr : String → Option GoError

/-- Go: `type Client struct`; `httpClient` is the `Do` method of the
circuit-breaking client, a state machine over `σ`. -/
structure Client (σ Body : Type) where
  httpClient : σ → Request → DoResult Body × σ
  iamEndpoint : String
  iamKey : String
  iamSecret : String

/-- Go: `http.NewRequest(method, url, body)`. -/
def NewRequest {Body : Type} (lib : Lib Body) (method url : String) (body : Wire) :
    Except GoError Request :=
  match lib.urlErr url with
  | some e => .error e
  | none => .ok { method := method, url := url, header := [], body := body, timeout := none }

/-- How a call ends: it returns its two results, panics, or blocks for ever
inside `Do`. -/
inductive Outcome (α : Type) where
  | returned (val : α) (err : Option GoError)
  | panicked
  | blocked
  deriving DecidableEq, Repr

/-- A finished call: how it ended and the requests it handed to the
transport, in order. -/
structure Run (α : Type) where
  out : Outcome α
  sent : List Request
  deriving DecidableEq, Repr

/-- The credential built from one record (lines 111-116 of the source). -/
def credentialOf (value : AccessKeyItem) : Credential :=
  { UserId := value.ProjectId
    DisplayName := value.Name
    AccessKeyID := value.AccessKey
    SecretAccessKey := value.AccessSecret
    AllowOtherUserAccess := false }

/-! ## `GetKeysByUid` -/

/-- The `for` loop of `GetKeysByUid`: `offset` and `credentials` are the
variables of the source, `sent` collects the requests handed to `Do`. -/
def GetKeysByUid.loop {σ Body : Type} (lib : Lib Body) (a : Client σ Body) (uid : String) :
    Nat → σ → Int → List Credential → List Request → Option (Run (List Credential))
  | 0, _, _, _, _ => none
  | fuel + 1, s, offset, credentials, sent =>
    let query : Query :=
      { Action := "DescribeAccessKeys", ProjectId := uid, AccessKeys := [], Offset := offset }
    let b := marshal query
    match NewRequest lib "POST" a.iamEndpoint b with
    | .error _ =>
      -- the error is dropped (`request, _ :=`) and `request` is nil
      some { out := .panicked, sent := sent }
    | .ok request =>
      let request := request.headerSet "X-Le-Key" "key"
      let request := request.headerSet "X-Le-Secret" "secret"
      match a.httpClient s request with
      | (.err e, _) => some { out := .returned credentials (some e), sent := sent ++ [request] }
      | (.hang, _) => some { out := .blocked, sent := sent ++ [request] }
      | (.response status body, s1) =>
        if status ≠ 200 then
          some { out := .returned credentials
                   (some (.errorsNew "QueryHistory to IAM failed as status != 200"))
                 sent := sent ++ [request] }
        else
          match body with
          | .readErr _ =>
            some { out := .returned credentials
                     (some (.errorsNew "QueryHistory ioutil.ReadAll failed"))
                   sent := sent ++ [request] }
          | .data bytes =>
            match lib.unmarshal bytes with
            | none =>
              some { out := .returned credentials
                       (some (.errorsNew "Decode QueryRespAll failed"))
                     sent := sent ++ [request] }
            | some queryRetAll =>
              if queryRetAll.RetCode ≠ 0 then
                some { out := .returned credentials
                         (some (.errorsNew "Query to IAM failed as RetCode != 0"))
                       sent := sent ++ [request] }
              else
                let credentials :=
                  credentials ++ queryRetAll.Data.AccessKeySet.map credentialOf
                let total := queryRetAll.Data.Total
                let count : Int := queryRetAll.Data.AccessKeySet.length
                if wrapInt (queryRetAll.Data.Offset + count) < total then
                  GetKeysByUid.loop lib a uid fuel s1
                    (wrapInt (queryRetAll.Data.Offset + count)) credentials (sent ++ [request])
                else
                  some { out := .returned credentials none, sent := sent ++ [request] }

/-- Go: `func (a *Client) GetKeysByUid(uid string)`, started with the
transport in state `s`. -/
def GetKeysByUid {σ Body : Type} (lib : Lib Body) (a : Client σ Body) (fuel : Nat) (s : σ)
    (uid : String) : Option (Run (List Credential)) :=
  GetKeysByUid.loop lib a uid fuel s 0 [] []

/-! ## `GetCredential` -/

/-- Go: `func (a *Client) GetCredential(accessKey string)`, started with the
transport in state `s`. -/
def GetCredential {σ Body : Type} (lib : Lib Body) (a : Client σ Body) (s : σ)
    (accessKey : String) : Run Credential :=
  let credential := Credential.zero
  let query : Query :=
    { Action := "DescribeAccessKeys", ProjectId := "", AccessKeys := [] ++ [accessKey],
      Offset := 0 }
  let b := marshal query
  match NewRequest lib "POST" a.iamEndpoint b with
  | .error err => { out := .returned credential (some err), sent := [] }
  | .ok request =>
    let request := request.headerSet "X-Le-Key" a.iamKey
    let request := request.headerSet "X-Le-Secret" a.iamSecret
    let request := request.headerSet "content-type" "application/json"
    let request := request.withTimeout 10
    match a.httpClient s request with
    | (.err err, _) => { out := .returned credential (some err), sent := [request] }
    | (.hang, _) => { out := .blocked, sent := [request] }
    | (.response status body, _) =>
      if status ≠ 200 then
        { out := .returned credential (some (.errorsNew "Query to IAM failed as status != 200"))
          sent := [request] }
      else
        match body with
        | .readErr err => { out := .returned credential (some err), sent := [request] }
        | .data bytes =>
          match lib.unmarshal bytes with
          | none =>
            { out := .returned credential (some (.errorsNew "Decode QueryHistoryResp failed"))
              sent := [request] }
          | some queryRetAll =>
            if queryRetAll.RetCode ≠ 0 then
              { out := .returned credential
                  (some (.errorsNew "Query to IAM failed as RetCode != 0"))
                sent := [request] }
            else if queryRetAll.Data.Total > 0 then
              match queryRetAll.Data.AccessKeySet with
              | [] =>
                -- `AccessKeySet[0]` on an empty slice: index out of range
                { out := .panicked, sent := [request] }
              | item :: _ =>
                { out := .returned
                    { credential with
                      UserId := item.ProjectId
                      DisplayName := item.Name
                      AccessKeyID := item.AccessKey
                      SecretAccessKey := item.AccessSecret } none
                  sent := [request] }
            else
              { out := .returned credential (some .ErrAccessKeyNotExist), sent := [request] }

/-! ## `json.Unmarshal` into `QueryRespAll`

The decoder of `encoding/json`, as far as the four struct types of the
plug-in exercise it.  A body is a parsed JSON text, or `none` when the text
is not JSON.  The decoder walks the members of an object in order; a member
whose key names no field is skipped; `null` leaves a field as it is; a value
of the wrong kind makes `Unmarshal` return an error.  When a key occurs
twice the later member is decoded into the value the former left; for a
slice that is the backing array, in which the records a shorter array cut
off stay behind as spare capacity. -/

/-- A parsed JSON text.  `int` is a number literal without fraction and
exponent, `real` any other number literal. -/
inductive Json where
  | null
  | bool (b : Bool)
  | int (n : Int)
  | real
  | str (s : String)
  | arr (items : List Json)
  | obj (members : List (String × Json))

/-- The value is the literal `null`. -/
def Json.isNull : Json → Bool
  | .null => true
  | _ => false

/-- The value is an object. -/
def Json.isObject : Json → Bool
  | .obj _ => true
  | _ => false

/-- Case folding of one character of a key: ASCII letters, and the two
code points U+212A (Kelvin sign) and U+017F (long s) that fold onto `k` and
`s`. -/
def foldChar (c : Char) : Char :=
  if c = Char.ofNat 8490 then 'k'
  else if c = Char.ofNat 383 then 's'
  else c.toLower

/-- Case folding of a key. -/
def foldName (key : String) : String := key.map foldChar

/-- The field a key selects: the one with exactly that name, else the first
one whose name equals the key up to case. -/
def findField {α : Type} (fields : List (String × α)) (key : String) : Option α :=
  match fields.find? (fun f => f.1 == key) with
  | some f => some f.2
  | none =>
    match fields.find? (fun f => foldName f.1 == foldName key) with
    | some f => some f.2
    | none => none

/-- Decoding into a Go `int` field. -/
def decodeInt (cur : Int) : Json → Option Int
  | .null => some cur
  | .int n =>
    if -9223372036854775808 ≤ n ∧ n < 9223372036854775808 then some n else none
  | _ => none

/-- Decoding into a Go `string` field. -/
def decodeString (cur : String) : Json → Option String
  | .null => some cur
  | .str v => some v
  | _ => none

/-- The fields of `AccessKeyItem`. -/
inductive ItemField where
  | projectId | name | accessKey | accessSecret | status | updated

/-- The JSON names of the fields of `AccessKeyItem`, in declaration order. -/
def itemFields : List (String × ItemField) :=
  [("projectId", .projectId), ("name", .name), ("accessKey", .accessKey),
   ("accessSecret", .accessSecret), ("status", .status), ("updated", .updated)]

/-- The fields of `QueryResp`. -/
inductive PageField where
  | limit | total | offset | accessKeySet

/-- The JSON names of the fields of `QueryResp`, in declaration order. -/
def pageFields : List (String × PageField) :=
  [("limit", .limit), ("total", .total), ("offset", .offset),
   ("accessKeySet", .accessKeySet)]

/-- The fields of `QueryRespAll`. -/
inductive EnvelopeField where
  | message | data | retCode
  deriving DecidableEq

/-- The JSON names of the fields of `QueryRespAll`, in declaration order. -/
def envelopeFields : List (String × EnvelopeField) :=
  [("message", .message), ("data", .data), ("retCode", .retCode)]

/-- The zero value of `AccessKeyItem`. -/
def AccessKeyItem.zero : AccessKeyItem :=
  { ProjectId := "", Name := "", AccessKey := "", AccessSecret := "", Status := "",
    Updated := "" }

/-- The zero value of `QueryResp`. -/
def QueryResp.zero : QueryResp :=
  { Limit := 0, Total := 0, Offset := 0, AccessKeySet := [] }

/-- The zero value of `QueryRespAll`, the state of `var queryRetAll`. -/
def QueryRespAll.zero : QueryRespAll :=
  { Message := "", Data := QueryResp.zero, RetCode := 0 }

/-- Decoding the members of an object into an `AccessKeyItem`. -/
def decodeItemMembers : AccessKeyItem → List (String × Json) → Option AccessKeyItem
  | cur, [] => some cur
  | cur, (key, v) :: rest =>
    match findField itemFields key with
    | none => decodeItemMembers cur rest
    | some .projectId =>
      match decodeString cur.ProjectId v with
      | none => none
      | some x => decodeItemMembers { cur with ProjectId := x } rest
    | some .name =>
      match decodeString cur.Name v with
      | none => none
      | some x => decodeItemMembers { cur with Name := x } rest
    | some .accessKey =>
      match decodeString cur.AccessKey v with
      | none => none
      | some x => decodeItemMembers { cur with AccessKey := x } rest
    | some .accessSecret =>
      match decodeString cur.AccessSecret v with
      | none => none
      | some x => decodeItemMembers { cur with AccessSecret := x } rest
    | some .status =>
      match decodeString cur.Status v with
      | none => none
      | some x => decodeItemMembers { cur with Status := x } rest
    | some .updated =>
      match decodeString cur.Updated v with
      | none => none
      | some x => decodeItemMembers { cur with Updated := x } rest

/-- Decoding into an `AccessKeyItem`. -/
def decodeItem (cur : AccessKeyItem) : Json → Option AccessKeyItem
  | .null => some cur
  | .obj members => decodeItemMembers cur members
  | _ => none

/-- Decoding the elements of an array, in order, into the records of a
backing array; an index beyond them starts from the zero record. -/
def decodeElements : List AccessKeyItem → List Json → Option (List AccessKeyItem)
  | _, [] => some []
  | cur, v :: rest =>
    match decodeItem (cur.headD AccessKeyItem.zero) v with
    | none => none
    | some x =>
      match decodeElements cur.tail rest with
      | none => none
      | some xs => some (x :: xs)

/-- Decoding into a `[]AccessKeyItem` whose elements are `cur` and whose
backing array holds the records `spare` after them.  The result is the new
elements and the new spare records: an element is decoded into the record
the backing array holds at its index, and the records beyond the last
element stay in the backing array.  `null` and the empty array install a
fresh slice. -/
def decodeItems (cur spare : List AccessKeyItem) :
    Json → Option (List AccessKeyItem × List AccessKeyItem)
  | .null => some ([], [])
  | .arr items =>
    match items with
    | [] => some ([], [])
    | _ :: _ =>
      match decodeElements (cur ++ spare) items with
      | none => none
      | some xs => some (xs, (cur ++ spare).drop items.length)
  | _ => none

/-- Decoding the members of an object into a `QueryResp`; `spare` is the
spare part of the backing array of `AccessKeySet`. -/
def decodePageMembers :
    QueryResp → List AccessKeyItem → List (String × Json) →
      Option (QueryResp × List AccessKeyItem)
  | cur, spare, [] => some (cur, spare)
  | cur, spare, (key, v) :: rest =>
    match findField pageFields key with
    | none => decodePageMembers cur spare rest
    | some .limit =>
      match decodeInt cur.Limit v with
      | none => none
      | some x => decodePageMembers { cur with Limit := x } spare rest
    | some .total =>
      match decodeInt cur.Total v with
      | none => none
      | some x => decodePageMembers { cur with Total := x } spare rest
    | some .offset =>
      match decodeInt cur.Offset v with
      | none => none
      | some x => decodePageMembers { cur with Offset := x } spare rest
    | some .accessKeySet =>
      match decodeItems cur.AccessKeySet spare v with
      | none => none
      | some x => decodePageMembers { cur with AccessKeySet := x.1 } x.2 rest

/-- Decoding into a `QueryResp`. -/
def decodePage (cur : QueryResp) (spare : List AccessKeyItem) :
    Json → Option (QueryResp × List AccessKeyItem)
  | .null => some (cur, spare)
  | .obj members => decodePageMembers cur spare members
  | _ => none

/-- Decoding the members of an object into a `QueryRespAll`; `spare` is the
spare part of the backing array of `Data.AccessKeySet`. -/
def decodeEnvelopeMembers :
    QueryRespAll → List AccessKeyItem → List (String × Json) →
      Option (QueryRespAll × List AccessKeyItem)
  | cur, spare, [] => some (cur, spare)
  | cur, spare, (key, v) :: rest =>
    match findField envelopeFields key with
    | none => decodeEnvelopeMembers cur spare rest
    | some .message =>
      match decodeString cur.Message v with
      | none => none
      | some x => decodeEnvelopeMembers { cur with Message := x } spare rest
    | some .data =>
      match decodePage cur.Data spare v with
      | none => none
      | some x => decodeEnvelopeMembers { cur with Data := x.1 } x.2 rest
    | some .retCode =>
      match decodeInt cur.RetCode v with
      | none => none
      | some x => decodeEnvelopeMembers { cur with RetCode := x } spare rest

/-- Go: `json.Unmarshal(body, &queryRetAll)` on a fresh `queryRetAll`;
`none` when it returns an error. -/
def goUnmarshal : Option Json → Option QueryRespAll
  | none => none
  | some .null => some QueryRespAll.zero
  | some (.obj members) =>
    match decodeEnvelopeMembers QueryRespAll.zero [] members with
    | none => none
    | some x => some x.1
  | some _ => none

/-- The library with the decoder above. -/
def goLib (urlErr : String → Option GoError) : Lib (Option Json) :=
  { unmarshal := goUnmarshal, urlErr := urlErr }

/-- A client with a scripted transport over JSON bodies. -/
def scriptedJson : Client (List (DoResult (Option Json))) (Option Json) :=
  { httpClient := fun script _ =>
      match script with
      | [] => (.err (.library "no more answers"), [])
      | r :: rest => (r, rest)
    iamEndpoint := "http://iam.example/query"
    iamKey := "AK"
    iamSecret := "SK" }

/-! ## A simulated identity service -/

/-- The page a well-behaved service holding the records `R` serves, with
pages of `P` records, to a request that asks for offset `o`. -/
def servedPage (R : List AccessKeyItem) (P : Nat) (o : Int) : QueryRespAll :=
  { Message := "ok"
    RetCode := 0
    Data :=
      { Limit := P
        Total := R.length
        Offset := o
        AccessKeySet := (R.drop o.toNat).take P } }

/-- A client whose transport is that service; the body of a response is the
decoded envelope itself. -/
def pagedClient (R : List AccessKeyItem) (P : Nat) : Client Unit QueryRespAll :=
  { httpClient := fun _ req =>
      (.response 200 (.data (servedPage R P req.body.offsetValue)), ())
    iamEndpoint := "http://iam.example/query"
    iamKey := "AK"
    iamSecret := "SK" }

/-- The library for such a transport: every body decodes to itself and every
endpoint parses. -/
def plainLib : Lib QueryRespAll :=
  { unmarshal := fun b => some b, urlErr := fun _ => none }

/-- A sample record. -/
def sampleItem (n : Nat) : AccessKeyItem :=
  { ProjectId := "p", Name := "n", AccessKey := toString n, AccessSecret := "s",
    Status := "active", Updated := "" }

/-- A client whose transport answers the successive calls with the entries
of a script, whatever the request; its state is the rest of the script. -/
def scriptedClient {Body : Type} (endpoint key secret : String) :
    Client (List (DoResult Body)) Body :=
  { httpClient := fun script _ =>
      match script with
      | [] => (.err (.library "no more answers"), [])
      | r :: rest => (r, rest)
    iamEndpoint := endpoint
    iamKey := key
    iamSecret := secret }

/-! ## Vocabulary of the statements -/

/-- The request `GetKeysByUid` hands to the transport when its cursor is
`offset` and the endpoint parses. -/
def keysRequest {σ Body : Type} (a : Client σ Body) (uid : String) (offset : Int) : Request :=
  { method := "POST"
    url := a.iamEndpoint
    header := [("X-Le-Key", "key"), ("X-Le-Secret", "secret")]
    body := marshal
      { Action := "DescribeAccessKeys", ProjectId := uid, AccessKeys := [], Offset := offset }
    timeout := none }

/-- The request `GetCredential` hands to the transport when the endpoint
parses. -/
def credentialRequest {σ Body : Type} (a : Client σ Body) (accessKey : String) : Request :=
  { method := "POST"
    url := a.iamEndpoint
    header := [("X-Le-Key", a.iamKey), ("X-Le-Secret", a.iamSecret),
      ("content-type", "application/json")]
    body := marshal
      { Action := "DescribeAccessKeys", ProjectId := "", AccessKeys := [accessKey], Offset := 0 }
    timeout := some 10 }

/-- The answer is an HTTP 200 whose body decodes to `r`, with `retCode` 0. -/
def PageOk {Body : Type} (lib : Lib Body) (res : DoResult Body) (r : QueryRespAll) : Prop :=
  ∃ b, res = .response 200 (.data b) ∧ lib.unmarshal b = some r ∧ r.RetCode = 0

/-- The answer is a remote rejection: a status other than 200, or a 200
whose body decodes with a `retCode` other than 0. -/
def PageRejected {Body : Type} (lib : Lib Body) (res : DoResult Body) : Prop :=
  (∃ status body, res = .response status body ∧ status ≠ 200) ∨
  (∃ b r, res = .response 200 (.data b) ∧ lib.unmarshal b = some r ∧ r.RetCode ≠ 0)

/-- The answer makes a page of `GetKeysByUid` fail with the error `e`:
transport error, status other than 200, body read error, decode error, or
`retCode` other than 0. -/
def PageFailsWith {Body : Type} (lib : Lib Body) (res : DoResult Body) (e : GoError) : Prop :=
  res = .err e ∨
  (∃ status body, res = .response status body ∧ status ≠ 200 ∧
    e = .errorsNew "QueryHistory to IAM failed as status != 200") ∨
  (∃ e0, res = .response 200 (.readErr e0) ∧
    e = .errorsNew "QueryHistory ioutil.ReadAll failed") ∨
  (∃ b, res = .response 200 (.data b) ∧ lib.unmarshal b = none ∧
    e = .errorsNew "Decode QueryRespAll failed") ∨
  (∃ b r, res = .response 200 (.data b) ∧ lib.unmarshal b = some r ∧ r.RetCode ≠ 0 ∧
    e = .errorsNew "Query to IAM failed as RetCode != 0")

/-- The cursor `GetKeysByUid` computes from a page: `Offset + count`. -/
def nextOffset (r : QueryRespAll) : Int :=
  wrapInt (r.Data.Offset + (r.Data.AccessKeySet.length : Int))

/-- Started in state `s` with the cursor at `offset`, the transport answers
the requests of `GetKeysByUid` with the successive pages `pages`, none of
them the last one (`Offset + count < Total`); it is then in state `t` and
the cursor is `offset1`. -/
def ServesPages {σ Body : Type} (lib : Lib Body) (a : Client σ Body) (uid : String) :
    σ → Int → List QueryRespAll → σ → Int → Prop
  | s, offset, [], t, offset1 => s = t ∧ offset = offset1
  | s, offset, r :: rest, t, offset1 =>
    PageOk lib (a.httpClient s (keysRequest a uid offset)).1 r ∧
    nextOffset r < r.Data.Total ∧
    ServesPages lib a uid (a.httpClient s (keysRequest a uid offset)).2 (nextOffset r)
      rest t offset1

/-- The credentials of the records of a list of pages, in page order. -/
def accumulated : List QueryRespAll → List Credential
  | [] => []
  | r :: rest => r.Data.AccessKeySet.map credentialOf ++ accumulated rest

/-- The number of requests for `N` records in pages of `P`:
`max 1 (ceil (N / P))`. -/
def pageCount (N P : Nat) : Nat := max 1 ((N + P - 1) / P)

/-- The requests `GetKeysByUid` sends while the transport serves `pages`
from the cursor `offset` on. -/
def servedRequests {σ Body : Type} (a : Client σ Body) (uid : String) :
    Int → List QueryRespAll → List Request
  | _, [] => []
  | offset, r :: rest => keysRequest a uid offset :: servedRequests a uid (nextOffset r) rest

/-- A page of one record that announces a total of two. -/
def firstOfTwo : QueryRespAll :=
  { Message := "ok", RetCode := 0
    Data := { Limit := 1, Total := 2, Offset := 0, AccessKeySet := [sampleItem 0] } }

/-- A page of one record that announces a total of zero. -/
def overfullPage : QueryRespAll :=
  { Message := "ok", RetCode := 0
    Data := { Limit := 1, Total := 0, Offset := 0, AccessKeySet := [sampleItem 0] } }

/-- An empty page that announces a total of one. -/
def stuckPage : QueryRespAll :=
  { Message := "ok", RetCode := 0
    Data := { Limit := 1, Total := 1, Offset := 0, AccessKeySet := [] } }

/-- A client whose transport answers every request with `stuckPage`. -/
def stuckClient : Client Unit QueryRespAll :=
  { httpClient := fun _ _ => (.response 200 (.data stuckPage), ())
    iamEndpoint := "http://iam.example/query"
    iamKey := "AK"
    iamSecret := "SK" }

/-- A client whose transport never returns from `Do`. -/
def hangingClient : Client Unit QueryRespAll :=
  { httpClient := fun _ _ => (.hang, ())
    iamEndpoint := "http://iam.example/query"
    iamKey := "AK"
    iamSecret := "SK" }

/-- A client with a scripted transport over decoded bodies. -/
def scripted : Client (List (DoResult QueryRespAll)) QueryRespAll :=
  scriptedClient "http://iam.example/query" "AK" "SK"

/-! ## The loop, one iteration at a time -/

theorem loop_request {σ Body : Type} (lib : Lib Body) (a : Client σ Body) (uid : String)
    (offset : Int) (hurl : lib.urlErr a.iamEndpoint = none) :
    NewRequest lib "POST" a.iamEndpoint (marshal
      { Action := "DescribeAccessKeys", ProjectId := uid, AccessKeys := [], Offset := offset })
      = .ok { method := "POST", url := a.iamEndpoint, header := [],
              body := (keysRequest a uid offset).body, timeout := none } := by
  simp [NewRequest, hurl, keysRequest]

theorem keysRequest_headers {σ Body : Type} (a : Client σ Body) (uid : String) (offset : Int) :
    (({ method := "POST", url := a.iamEndpoint, header := [],
        body := (keysRequest a uid offset).body, timeout := none } : Request).headerSet
      "X-Le-Key" "key").headerSet "X-Le-Secret" "secret" = keysRequest a uid offset := by
  simp [Request.headerSet, keysRequest]

/-- A failing page ends the loop with the error and the list accumulated so
far. -/
theorem loop_fails {σ Body : Type} (lib : Lib Body) (a : Client σ Body) (uid : String)
    (hurl : lib.urlErr a.iamEndpoint = none) (fuel : Nat) (s : σ) (offset : Int)
    (credentials : List Credential) (sent : List Request) (e : GoError)
    (hfail : PageFailsWith lib (a.httpClient s (keysRequest a uid offset)).1 e) :
    GetKeysByUid.loop lib a uid (fuel + 1) s offset credentials sent =
      some { out := .returned credentials (some e)
             sent := sent ++ [keysRequest a uid offset] } := by
  unfold GetKeysByUid.loop
  simp only [loop_request lib a uid offset hurl, keysRequest_headers]
  rcases hres : a.httpClient s (keysRequest a uid offset) with ⟨res, s1⟩
  rw [hres] at hfail
  rcases hfail with h | ⟨status, body, h, hst, he⟩ | ⟨e0, h, he⟩ | ⟨b, h, hb, he⟩ |
    ⟨b, r, h, hb, hr, he⟩
  · simp only at h; subst h; rfl
  · simp only at h; subst h; simp [hst, he]
  · simp only at h; subst h; simp [he]
  · simp only at h; subst h; simp [hb, he]
  · simp only at h; subst h; simp [hb, hr, he]

/-- A successful page either ends the loop, when `Offset + count < Total`
fails, or moves the cursor to `Offset + count`. -/
theorem loop_page {σ Body : Type} (lib : Lib Body) (a : Client σ Body) (uid : String)
    (hurl : lib.urlErr a.iamEndpoint = none) (fuel : Nat) (s : σ) (offset : Int)
    (credentials : List Credential) (sent : List Request) (r : QueryRespAll)
    (hok : PageOk lib (a.httpClient s (keysRequest a uid offset)).1 r) :
    GetKeysByUid.loop lib a uid (fuel + 1) s offset credentials sent =
      if nextOffset r < r.Data.Total then
        GetKeysByUid.loop lib a uid fuel (a.httpClient s (keysRequest a uid offset)).2
          (nextOffset r) (credentials ++ r.Data.AccessKeySet.map credentialOf)
          (sent ++ [keysRequest a uid offset])
      else
        some { out := .returned (credentials ++ r.Data.AccessKeySet.map credentialOf) none
               sent := sent ++ [keysRequest a uid offset] } := by
  rw [GetKeysByUid.loop]
  simp only [loop_request lib a uid offset hurl, keysRequest_headers]
  rcases hres : a.httpClient s (keysRequest a uid offset) with ⟨res, s1⟩
  rw [hres] at hok
  obtain ⟨b, h, hb, hr⟩ := hok
  simp only at h; subst h
  simp [hb, hr, nextOffset]

theorem keysRequest_offsetValue {σ Body : Type} (a : Client σ Body) (uid : String)
    (offset : Int) : (keysRequest a uid offset).body.offsetValue = offset := by
  unfold keysRequest marshal Wire.offsetValue
  by_cases h : offset = 0 <;> simp [h]

theorem wrapInt_of_range (x : Int) (hlo : -9223372036854775808 ≤ x)
    (hhi : x < 9223372036854775808) : wrapInt x = x := by
  unfold wrapInt
  omega

/-! ## The loop against a well-behaved service -/

/-- With `m` pages left from cursor `o`, the loop fetches them at the
cursors `o, o + P, ...` and returns the records from `o` on. -/
theorem loop_paged {σ Body : Type} (lib : Lib Body) (a : Client σ Body) (uid : String)
    (R : List AccessKeyItem) (P : Nat) (hP : 1 ≤ P)
    (hN : (R.length : Int) < 9223372036854775808)
    (hurl : lib.urlErr a.iamEndpoint = none)
    (hT : ∀ (t : σ) (req : Request), 0 ≤ req.body.offsetValue →
      ∃ r, PageOk lib (a.httpClient t req).1 r ∧ r.Data.Total = R.length ∧
        r.Data.Offset = req.body.offsetValue ∧
        r.Data.AccessKeySet = (R.drop req.body.offsetValue.toNat).take P) :
    ∀ (m o : Nat) (s : σ) (acc : List Credential) (sent : List Request) (fuel : Nat),
      1 ≤ m → o ≤ R.length → R.length ≤ o + m * P →
      (2 ≤ m → o + (m - 1) * P < R.length) → m ≤ fuel →
      GetKeysByUid.loop lib a uid fuel s (o : Int) acc sent =
        some { out := .returned (acc ++ (R.drop o).map credentialOf) none
               sent := sent ++
                 (List.range m).map (fun k => keysRequest a uid ((o + k * P : Nat) : Int)) } := by
  intro m
  induction m with
  | zero => intro o s acc sent fuel h1; omega
  | succ m ih =>
    intro o s acc sent fuel _ ho hcover hstrict hfuel
    obtain ⟨fuel, rfl⟩ : ∃ f, fuel = f + 1 := ⟨fuel - 1, by omega⟩
    obtain ⟨r, hok, htot, hoff, hset⟩ :=
      hT s (keysRequest a uid o) (by rw [keysRequest_offsetValue]; omega)
    rw [keysRequest_offsetValue] at hoff hset
    rw [Int.toNat_ofNat] at hset
    rw [loop_page lib a uid hurl fuel s o acc sent r hok]
    have hlen : r.Data.AccessKeySet.length = min P (R.length - o) := by
      rw [hset]; simp [List.length_take, List.length_drop]
    have hmul : (m + 1) * P = m * P + P := Nat.succ_mul m P
    by_cases hm : m = 0
    · subst hm
      have hcount : r.Data.AccessKeySet.length = R.length - o := by omega
      have hnext : nextOffset r = (R.length : Int) := by
        unfold nextOffset
        rw [hoff, hcount, wrapInt_of_range] <;> omega
      have htake : r.Data.AccessKeySet = R.drop o := by
        rw [hset]
        apply List.take_of_length_le
        simp [List.length_drop]; omega
      rw [hnext, htot, if_neg (lt_irrefl _), htake]
      simp [List.range_succ]
    · have hmP : P ≤ m * P := Nat.le_mul_of_pos_left P (Nat.pos_of_ne_zero hm)
      have hlt : o + m * P < R.length := by
        have := hstrict (by omega)
        simpa using this
      have hcount : r.Data.AccessKeySet.length = P := by omega
      have hnext : nextOffset r = ((o + P : Nat) : Int) := by
        unfold nextOffset
        rw [hoff, hcount, wrapInt_of_range] <;> push_cast <;> omega
      have hcont : nextOffset r < r.Data.Total := by rw [hnext, htot]; omega
      rw [if_pos hcont, hnext]
      have hsub : (m - 1) * P = m * P - P := Nat.sub_one_mul m P
      rw [ih (o + P) _ _ _ fuel (by omega) (by omega) (by omega)
        (by intro _; rw [hsub]; omega) (by omega)]
      have hsplit : R.drop o = (R.drop o).take P ++ R.drop (o + P) := by
        rw [← List.drop_drop, List.take_append_drop]
      have hacc : acc ++ List.map credentialOf r.Data.AccessKeySet ++
          List.map credentialOf (R.drop (o + P)) = acc ++ List.map credentialOf (R.drop o) := by
        rw [hset, List.append_assoc, ← List.map_append, ← hsplit]
      have hsent : sent ++ [keysRequest a uid (o : Int)] ++
          List.map (fun k => keysRequest a uid ((o + P + k * P : Nat) : Int)) (List.range m) =
          sent ++ List.map (fun k => keysRequest a uid ((o + k * P : Nat) : Int))
            (List.range (m + 1)) := by
        rw [List.range_succ_eq_map, List.map_cons, List.map_map, List.append_assoc]
        congr 1
        simp only [List.singleton_append, Nat.zero_mul, Nat.add_zero]
        congr 1
        apply List.map_congr_left
        intro k _
        simp only [Function.comp, Nat.succ_mul]
        congr 2
        omega
      rw [hacc, hsent]

theorem pageCount_spec (N P : Nat) (hP : 1 ≤ P) :
    1 ≤ pageCount N P ∧ N ≤ pageCount N P * P ∧
      (2 ≤ pageCount N P → (pageCount N P - 1) * P < N) := by
  have h1 := Nat.div_add_mod (N + P - 1) P
  have h2 := Nat.mod_lt (N + P - 1) (show 0 < P by omega)
  unfold pageCount
  rcases Nat.lt_or_ge ((N + P - 1) / P) 1 with hq | hq
  · have hq0 : (N + P - 1) / P = 0 := Nat.lt_one_iff.mp hq
    rw [hq0] at h1 ⊢
    simp only [Nat.mul_zero, Nat.zero_add] at h1
    refine ⟨by simp, ?_, by simp⟩
    simp only [Nat.zero_le, max_eq_left, Nat.one_mul]
    omega
  · rw [max_eq_right hq]
    have hc : (N + P - 1) / P * P = P * ((N + P - 1) / P) := Nat.mul_comm _ _
    refine ⟨hq, by omega, ?_⟩
    intro h2q
    have hs : ((N + P - 1) / P - 1) * P = (N + P - 1) / P * P - P := Nat.sub_one_mul _ P
    have hge : P * 2 ≤ P * ((N + P - 1) / P) := Nat.mul_le_mul_left P h2q
    omega

/-- The first `k` pages, none of them the last one: the loop reaches the
cursor `o + k * P` having accumulated the `k * P` records from `o` on. -/
theorem loop_paged_front {σ Body : Type} (lib : Lib Body) (a : Client σ Body) (uid : String)
    (R : List AccessKeyItem) (P : Nat) (hP : 1 ≤ P)
    (hN : (R.length : Int) < 9223372036854775808)
    (hurl : lib.urlErr a.iamEndpoint = none)
    (hT : ∀ (t : σ) (req : Request), 0 ≤ req.body.offsetValue →
      ∃ r, PageOk lib (a.httpClient t req).1 r ∧ r.Data.Total = R.length ∧
        r.Data.Offset = req.body.offsetValue ∧
        r.Data.AccessKeySet = (R.drop req.body.offsetValue.toNat).take P) :
    ∀ (k o : Nat) (s : σ) (acc : List Credential) (sent : List Request),
      (k = 0 ∨ o + k * P < R.length) →
      ∃ t, ∀ fuel, GetKeysByUid.loop lib a uid (k + fuel) s (o : Int) acc sent =
        GetKeysByUid.loop lib a uid fuel t ((o + k * P : Nat) : Int)
          (acc ++ ((R.drop o).take (k * P)).map credentialOf)
          (sent ++ (List.range k).map (fun j => keysRequest a uid ((o + j * P : Nat) : Int))) := by
  intro k
  induction k with
  | zero => intro o s acc sent _; exact ⟨s, fun fuel => by simp⟩
  | succ k ih =>
    intro o s acc sent hk
    have hmul : (k + 1) * P = k * P + P := Nat.succ_mul k P
    have hlt : o + (k * P + P) < R.length := by
      rcases hk with h | h
      · omega
      · omega
    obtain ⟨r, hok, htot, hoff, hset⟩ :=
      hT s (keysRequest a uid o) (by rw [keysRequest_offsetValue]; omega)
    rw [keysRequest_offsetValue] at hoff hset
    rw [Int.toNat_ofNat] at hset
    have hlen : r.Data.AccessKeySet.length = min P (R.length - o) := by
      rw [hset]; simp [List.length_take, List.length_drop]
    have hcount : r.Data.AccessKeySet.length = P := by omega
    have hnext : nextOffset r = ((o + P : Nat) : Int) := by
      unfold nextOffset
      rw [hoff, hcount, wrapInt_of_range] <;> push_cast <;> omega
    have hcont : nextOffset r < r.Data.Total := by rw [hnext, htot]; omega
    obtain ⟨t, ht⟩ := ih (o + P) (a.httpClient s (keysRequest a uid o)).2
      (acc ++ r.Data.AccessKeySet.map credentialOf) (sent ++ [keysRequest a uid o])
      (by
        rcases Nat.eq_zero_or_pos k with h | h
        · exact Or.inl h
        · exact Or.inr (by omega))
    refine ⟨t, fun fuel => ?_⟩
    have hf : k + 1 + fuel = (k + fuel) + 1 := by omega
    rw [hf, loop_page lib a uid hurl (k + fuel) s o acc sent r hok, if_pos hcont, hnext, ht fuel]
    have hoffs : o + P + k * P = o + (k + 1) * P := by omega
    have hacc : acc ++ List.map credentialOf r.Data.AccessKeySet ++
        List.map credentialOf ((R.drop (o + P)).take (k * P)) =
        acc ++ List.map credentialOf ((R.drop o).take ((k + 1) * P)) := by
      rw [hset, List.append_assoc, ← List.map_append, hmul, Nat.add_comm (k * P) P,
        List.take_add, List.drop_drop]
    have hsent : sent ++ [keysRequest a uid (o : Int)] ++
        List.map (fun j => keysRequest a uid ((o + P + j * P : Nat) : Int)) (List.range k) =
        sent ++ List.map (fun j => keysRequest a uid ((o + j * P : Nat) : Int))
          (List.range (k + 1)) := by
      rw [List.range_succ_eq_map, List.map_cons, List.map_map, List.append_assoc]
      congr 1
      simp only [List.singleton_append, Nat.zero_mul, Nat.add_zero]
      congr 1
      apply List.map_congr_left
      intro j _
      simp only [Function.comp, Nat.succ_mul]
      congr 2
      omega
    rw [hoffs, hacc, hsent]

theorem pagedClient_serves (R : List AccessKeyItem) (P : Nat) (t : Unit) (req : Request) :
    ∃ r, PageOk plainLib ((pagedClient R P).httpClient t req).1 r ∧ r.Data.Total = R.length ∧
      r.Data.Offset = req.body.offsetValue ∧
      r.Data.AccessKeySet = (R.drop req.body.offsetValue.toNat).take P :=
  ⟨servedPage R P req.body.offsetValue, ⟨_, rfl, rfl, rfl⟩, rfl, rfl, rfl⟩

theorem credentialRequest_build {σ Body : Type} (lib : Lib Body) (a : Client σ Body)
    (accessKey : String) (hurl : lib.urlErr a.iamEndpoint = none) :
    NewRequest lib "POST" a.iamEndpoint (marshal
      { Action := "DescribeAccessKeys", ProjectId := "", AccessKeys := [] ++ [accessKey],
        Offset := 0 })
      = .ok { method := "POST", url := a.iamEndpoint, header := [],
              body := (credentialRequest a accessKey).body, timeout := none } := by
  simp [NewRequest, hurl, credentialRequest]

theorem credentialRequest_headers {σ Body : Type} (a : Client σ Body) (accessKey : String) :
    (((({ method := "POST", url := a.iamEndpoint, header := [],
          body := (credentialRequest a accessKey).body, timeout := none } : Request).headerSet
      "X-Le-Key" a.iamKey).headerSet "X-Le-Secret" a.iamSecret).headerSet
      "content-type" "application/json").withTimeout 10 = credentialRequest a accessKey := by
  simp [Request.headerSet, Request.withTimeout, credentialRequest]

/-- The result of `GetCredential` on an answer that is a successful page. -/
theorem GetCredential_page {σ Body : Type} (lib : Lib Body) (a : Client σ Body)
    (accessKey : String) (hurl : lib.urlErr a.iamEndpoint = none) (s : σ) (r : QueryRespAll)
    (hok : PageOk lib (a.httpClient s (credentialRequest a accessKey)).1 r) :
    GetCredential lib a s accessKey =
      if r.Data.Total > 0 then
        match r.Data.AccessKeySet with
        | [] => { out := .panicked, sent := [credentialRequest a accessKey] }
        | item :: _ =>
          { out := .returned
              { UserId := item.ProjectId, DisplayName := item.Name, AccessKeyID := item.AccessKey,
                SecretAccessKey := item.AccessSecret, AllowOtherUserAccess := false } none
            sent := [credentialRequest a accessKey] }
      else
        { out := .returned Credential.zero (some .ErrAccessKeyNotExist)
          sent := [credentialRequest a accessKey] } := by
  unfold GetCredential
  simp only [credentialRequest_build lib a accessKey hurl, credentialRequest_headers]
  rcases hres : a.httpClient s (credentialRequest a accessKey) with ⟨res, s1⟩
  rw [hres] at hok
  obtain ⟨b, h, hb, hr⟩ := hok
  simp only at h; subst h
  simp only [hb, hr]
  by_cases ht : r.Data.Total > 0
  · simp only [ht, if_true]
    cases r.Data.AccessKeySet <;> simp [Credential.zero]
  · simp [ht]

/-- The result of `GetCredential` on a rejected answer. -/
theorem GetCredential_rejected {σ Body : Type} (lib : Lib Body) (a : Client σ Body)
    (accessKey : String) (hurl : lib.urlErr a.iamEndpoint = none) (s : σ)
    (hrej : PageRejected lib (a.httpClient s (credentialRequest a accessKey)).1) :
    ∃ e, GetCredential lib a s accessKey =
      { out := .returned Credential.zero (some e), sent := [credentialRequest a accessKey] } := by
  unfold GetCredential
  simp only [credentialRequest_build lib a accessKey hurl, credentialRequest_headers]
  rcases hres : a.httpClient s (credentialRequest a accessKey) with ⟨res, s1⟩
  rw [hres] at hrej
  rcases hrej with ⟨status, body, h, hst⟩ | ⟨b, r, h, hb, hr⟩
  · simp only at h; subst h
    exact ⟨.errorsNew "Query to IAM failed as status != 200", by simp [hst]⟩
  · simp only at h; subst h
    exact ⟨.errorsNew "Query to IAM failed as RetCode != 0", by simp [hb, hr]⟩

theorem PageRejected.fails {Body : Type} {lib : Lib Body} {res : DoResult Body}
    (h : PageRejected lib res) : ∃ e, PageFailsWith lib res e := by
  rcases h with ⟨status, body, h, hst⟩ | ⟨b, r, h, hb, hr⟩
  · exact ⟨_, Or.inr (Or.inl ⟨status, body, h, hst, rfl⟩)⟩
  · exact ⟨_, Or.inr (Or.inr (Or.inr (Or.inr ⟨b, r, h, hb, hr, rfl⟩)))⟩

/-- While the transport serves non-final pages the loop accumulates their
records and moves on. -/
theorem loop_served {σ Body : Type} (lib : Lib Body) (a : Client σ Body) (uid : String)
    (hurl : lib.urlErr a.iamEndpoint = none) :
    ∀ (pages : List QueryRespAll) (s : σ) (offset : Int) (acc : List Credential)
      (sent : List Request) (t : σ) (offset1 : Int) (fuel : Nat),
      ServesPages lib a uid s offset pages t offset1 →
      GetKeysByUid.loop lib a uid (pages.length + fuel) s offset acc sent =
        GetKeysByUid.loop lib a uid fuel t offset1 (acc ++ accumulated pages)
          (sent ++ servedRequests a uid offset pages) := by
  intro pages
  induction pages with
  | nil =>
    intro s offset acc sent t offset1 fuel h
    obtain ⟨rfl, rfl⟩ := h
    simp [accumulated, servedRequests]
  | cons r rest ih =>
    intro s offset acc sent t offset1 fuel h
    obtain ⟨hok, hlt, hrest⟩ := h
    have hf : (r :: rest).length + fuel = (rest.length + fuel) + 1 := by
      simp only [List.length_cons]; omega
    rw [hf, loop_page lib a uid hurl _ s offset acc sent r hok, if_pos hlt,
      ih _ _ _ _ t offset1 fuel hrest]
    simp [accumulated, servedRequests]

/-- After the pages served, a failing page ends `GetKeysByUid` with its
error and the credentials of the pages served. -/
theorem GetKeysByUid_fails_after {σ Body : Type} (lib : Lib Body) (a : Client σ Body)
    (uid : String) (hurl : lib.urlErr a.iamEndpoint = none) (s : σ)
    (pages : List QueryRespAll) (t : σ) (offset : Int) (e : GoError) (fuel : Nat)
    (hserved : ServesPages lib a uid s 0 pages t offset)
    (hfail : PageFailsWith lib (a.httpClient t (keysRequest a uid offset)).1 e)
    (hfuel : pages.length + 1 ≤ fuel) :
    GetKeysByUid lib a fuel s uid =
      some { out := .returned (accumulated pages) (some e)
             sent := servedRequests a uid 0 pages ++ [keysRequest a uid offset] } := by
  obtain ⟨f, rfl⟩ : ∃ f, fuel = pages.length + (f + 1) := ⟨fuel - pages.length - 1, by omega⟩
  unfold GetKeysByUid
  rw [loop_served lib a uid hurl pages s 0 [] [] t offset (f + 1) hserved,
    loop_fails lib a uid hurl f t offset _ _ e hfail]
  simp

theorem loop_hang {σ Body : Type} (lib : Lib Body) (a : Client σ Body) (uid : String)
    (hurl : lib.urlErr a.iamEndpoint = none) (fuel : Nat) (s : σ) (offset : Int)
    (credentials : List Credential) (sent : List Request)
    (hhang : (a.httpClient s (keysRequest a uid offset)).1 = .hang) :
    GetKeysByUid.loop lib a uid (fuel + 1) s offset credentials sent =
      some { out := .blocked, sent := sent ++ [keysRequest a uid offset] } := by
  rw [GetKeysByUid.loop]
  simp only [loop_request lib a uid offset hurl, keysRequest_headers]
  rcases hres : a.httpClient s (keysRequest a uid offset) with ⟨res, s1⟩
  rw [hres] at hhang
  simp only at hhang; subst hhang
  rfl

theorem loop_badEndpoint {σ Body : Type} (lib : Lib Body) (a : Client σ Body) (uid : String)
    (e : GoError) (hurl : lib.urlErr a.iamEndpoint = some e) (fuel : Nat) (s : σ)
    (offset : Int) (credentials : List Credential) (sent : List Request) :
    GetKeysByUid.loop lib a uid (fuel + 1) s offset credentials sent =
      some { out := .panicked, sent := sent } := by
  rw [GetKeysByUid.loop]
  simp [NewRequest, hurl]

/-- Every answer is a failure, a hang or a successful page. -/
theorem answer_cases {Body : Type} (lib : Lib Body) (res : DoResult Body) :
    (∃ e, PageFailsWith lib res e) ∨ res = .hang ∨ ∃ r, PageOk lib res r := by
  cases res with
  | err e => exact Or.inl ⟨e, Or.inl rfl⟩
  | hang => exact Or.inr (Or.inl rfl)
  | response status body =>
    by_cases hst : status = 200
    · subst hst
      cases body with
      | readErr e0 => exact Or.inl ⟨_, Or.inr (Or.inr (Or.inl ⟨e0, rfl, rfl⟩))⟩
      | data b =>
        cases hb : lib.unmarshal b with
        | none => exact Or.inl ⟨_, Or.inr (Or.inr (Or.inr (Or.inl ⟨b, rfl, hb, rfl⟩)))⟩
        | some r =>
          by_cases hr : r.RetCode = 0
          · exact Or.inr (Or.inr ⟨r, b, rfl, hb, hr⟩)
          · exact Or.inl ⟨_, Or.inr (Or.inr (Or.inr (Or.inr ⟨b, r, rfl, hb, hr, rfl⟩)))⟩
    · exact Or.inl ⟨_, Or.inr (Or.inl ⟨status, body, rfl, hst, rfl⟩)⟩

theorem wrapInt_range (x : Int) :
    -9223372036854775808 ≤ wrapInt x ∧ wrapInt x < 9223372036854775808 := by
  unfold wrapInt
  omega

/-- The loop ends when every successful page that is not the last one moves
the cursor forward and the totals are bounded. -/
theorem loop_terminates {σ Body : Type} (lib : Lib Body) (a : Client σ Body) (uid : String)
    (T : Int)
    (hnohang : ∀ (t : σ) (req : Request), (a.httpClient t req).1 ≠ .hang)
    (hprog : ∀ (t : σ) (req : Request) (r : QueryRespAll),
      0 ≤ req.body.offsetValue → req.body.offsetValue < 9223372036854775808 →
      PageOk lib (a.httpClient t req).1 r → nextOffset r < r.Data.Total →
        req.body.offsetValue < nextOffset r ∧ r.Data.Total ≤ T) :
    ∀ (fuel : Nat) (s : σ) (offset : Int) (acc : List Credential) (sent : List Request),
      0 ≤ offset → offset < 9223372036854775808 → (T - offset).toNat + 1 ≤ fuel →
      ∃ run, GetKeysByUid.loop lib a uid fuel s offset acc sent = some run ∧
        run.out ≠ .blocked ∧ run.sent.length ≤ sent.length + (T - offset).toNat + 1 := by
  intro fuel
  induction fuel with
  | zero => intro s offset acc sent _ _ h; omega
  | succ fuel ih =>
    intro s offset acc sent hlo hhi hfuel
    cases hurl : lib.urlErr a.iamEndpoint with
    | some e =>
      refine ⟨_, loop_badEndpoint lib a uid e hurl fuel s offset acc sent, ?_, ?_⟩
      · simp
      · simp only; omega
    | none =>
      rcases answer_cases lib (a.httpClient s (keysRequest a uid offset)).1 with
        ⟨e, hfail⟩ | hhang | ⟨r, hok⟩
      · refine ⟨_, loop_fails lib a uid hurl fuel s offset acc sent e hfail, ?_, ?_⟩
        · simp
        · simp only [List.length_append, List.length_singleton]; omega
      · exact absurd hhang (hnohang _ _)
      · rw [loop_page lib a uid hurl fuel s offset acc sent r hok]
        by_cases hlt : nextOffset r < r.Data.Total
        · rw [if_pos hlt]
          obtain ⟨hadv, htot⟩ := hprog s (keysRequest a uid offset) r
            (by rw [keysRequest_offsetValue]; exact hlo)
            (by rw [keysRequest_offsetValue]; exact hhi) hok hlt
          rw [keysRequest_offsetValue] at hadv
          have hnr : nextOffset r < 9223372036854775808 := (wrapInt_range _).2
          obtain ⟨run, hrun, hout, hlen⟩ := ih (a.httpClient s (keysRequest a uid offset)).2
            (nextOffset r) (acc ++ r.Data.AccessKeySet.map credentialOf)
            (sent ++ [keysRequest a uid offset]) (by omega) hnr (by omega)
          refine ⟨run, hrun, hout, ?_⟩
          simp only [List.length_append, List.length_singleton] at hlen
          omega
        · rw [if_neg hlt]
          refine ⟨_, rfl, ?_, ?_⟩
          · simp
          · simp only [List.length_append, List.length_singleton]; omega

/-- The simulated service makes progress on every page that is not the last
one. -/
theorem pagedClient_progress (R : List AccessKeyItem) (P : Nat) (hP : 1 ≤ P)
    (hN : (R.length : Int) < 9223372036854775808) (t : Unit) (req : Request)
    (r : QueryRespAll) (hlo : 0 ≤ req.body.offsetValue)
    (hhi : req.body.offsetValue < 9223372036854775808)
    (hok : PageOk plainLib ((pagedClient R P).httpClient t req).1 r)
    (hlt : nextOffset r < r.Data.Total) :
    req.body.offsetValue < nextOffset r ∧ r.Data.Total ≤ (R.length : Int) := by
  obtain ⟨b, hb, hu, _⟩ := hok
  have hb1 : b = servedPage R P req.body.offsetValue := by
    have := hb
    simp only [pagedClient] at this
    injection this with _ h2
    injection h2 with h3
    exact h3.symm
  have hr : r = servedPage R P req.body.offsetValue := by
    have := hu
    simp only [plainLib] at this
    injection this with h2
    rw [← h2, hb1]
  subst hr
  have hlen : (servedPage R P req.body.offsetValue).Data.AccessKeySet.length =
      min P (R.length - req.body.offsetValue.toNat) := by
    simp [servedPage, List.length_take, List.length_drop]
  have hnext : nextOffset (servedPage R P req.body.offsetValue) =
      wrapInt (req.body.offsetValue +
        ((min P (R.length - req.body.offsetValue.toNat) : Nat) : Int)) := by
    unfold nextOffset
    rw [hlen]
    rfl
  have htot : (servedPage R P req.body.offsetValue).Data.Total = (R.length : Int) := rfl
  rw [hnext, htot] at hlt
  rw [hnext, htot]
  unfold wrapInt at hlt ⊢
  refine ⟨?_, le_refl _⟩
  omega

theorem stuck_loop (fuel : Nat) (acc : List Credential) (sent : List Request) :
    GetKeysByUid.loop plainLib stuckClient "u1" fuel () 0 acc sent = none := by
  induction fuel generalizing acc sent with
  | zero => rfl
  | succ fuel ih =>
    have hok : PageOk plainLib (stuckClient.httpClient () (keysRequest stuckClient "u1" 0)).1
        stuckPage := ⟨_, rfl, rfl, rfl⟩
    rw [loop_page plainLib stuckClient "u1" rfl fuel () 0 acc sent stuckPage hok]
    have hnext : nextOffset stuckPage = 0 := by decide
    rw [hnext, if_pos (by decide)]
    exact ih _ _

/-! ## The decoder on a malformed envelope -/

theorem decodePage_wrong_kind (cur : QueryResp) (spare : List AccessKeyItem) (v : Json)
    (hobj : v.isObject = false) (hnull : v.isNull = false) :
    decodePage cur spare v = none := by
  cases v <;> simp_all [decodePage, Json.isObject, Json.isNull]

theorem decodePage_null (cur : QueryResp) (spare : List AccessKeyItem) (v : Json)
    (hnull : v.isNull = true) : decodePage cur spare v = some (cur, spare) := by
  cases v <;> simp_all [decodePage, Json.isNull]

/-- A `data` member that is neither an object nor `null` makes the decoder
fail, wherever it stands. -/
theorem decodeEnvelopeMembers_wrong_data (key : String) (v : Json)
    (hkey : findField envelopeFields key = some .data) (hobj : v.isObject = false)
    (hnull : v.isNull = false) :
    ∀ (members : List (String × Json)) (cur : QueryRespAll) (spare : List AccessKeyItem),
      (key, v) ∈ members → decodeEnvelopeMembers cur spare members = none := by
  intro members
  induction members with
  | nil => intro cur spare h; simp at h
  | cons head rest ih =>
    intro cur spare hmem
    obtain ⟨k, w⟩ := head
    rw [decodeEnvelopeMembers]
    rcases List.mem_cons.mp hmem with heq | hrest
    · injection heq with h1 h2
      subst h1; subst h2
      simp only [hkey, decodePage_wrong_kind cur.Data spare v hobj hnull]
    · cases hf : findField envelopeFields k with
      | none => simpa using ih cur spare hrest
      | some f =>
        cases f with
        | message =>
          cases hd : decodeString cur.Message w with
          | none => simp
          | some x => simpa using ih _ _ hrest
        | data =>
          cases hd : decodePage cur.Data spare w with
          | none => simp
          | some x => simpa using ih _ _ hrest
        | retCode =>
          cases hd : decodeInt cur.RetCode w with
          | none => simp
          | some x => simpa using ih _ _ hrest

/-- Without a `data` member other than `null` the decoder leaves `Data` as
it was. -/
theorem decodeEnvelopeMembers_no_data :
    ∀ (members : List (String × Json)) (cur : QueryRespAll) (spare : List AccessKeyItem)
      (x : QueryRespAll × List AccessKeyItem),
      (∀ kv ∈ members, findField envelopeFields kv.1 = some .data → kv.2.isNull = true) →
      decodeEnvelopeMembers cur spare members = some x → x.1.Data = cur.Data := by
  intro members
  induction members with
  | nil =>
    intro cur spare x _ h
    simp only [decodeEnvelopeMembers, Option.some.injEq] at h
    rw [← h]
  | cons head rest ih =>
    intro cur spare x hno h
    obtain ⟨k, w⟩ := head
    have hrest : ∀ kv ∈ rest, findField envelopeFields kv.1 = some .data →
        kv.2.isNull = true := fun kv hkv => hno kv (List.mem_cons_of_mem _ hkv)
    rw [decodeEnvelopeMembers] at h
    cases hf : findField envelopeFields k with
    | none =>
      simp only [hf] at h
      exact ih cur spare x hrest h
    | some f =>
      cases f with
      | message =>
        cases hd : decodeString cur.Message w with
        | none => simp [hf, hd] at h
        | some y =>
          simp only [hf, hd] at h
          exact ih { cur with Message := y } spare x hrest h
      | data =>
        have hw : w.isNull = true := hno (k, w) (List.mem_cons_self _ _) hf
        simp only [hf, decodePage_null cur.Data spare w hw] at h
        exact ih { cur with Data := cur.Data } spare x hrest h
      | retCode =>
        cases hd : decodeInt cur.RetCode w with
        | none => simp [hf, hd] at h
        | some y =>
          simp only [hf, hd] at h
          exact ih { cur with RetCode := y } spare x hrest h

/-- A body with a wrong-typed `data` member does not decode. -/
theorem goUnmarshal_wrong_data (members : List (String × Json)) (key : String) (v : Json)
    (hmem : (key, v) ∈ members) (hkey : findField envelopeFields key = some .data)
    (hobj : v.isObject = false) (hnull : v.isNull = false) :
    goUnmarshal (some (.obj members)) = none := by
  simp only [goUnmarshal,
    decodeEnvelopeMembers_wrong_data key v hkey hobj hnull members QueryRespAll.zero [] hmem]

/-- A body without a `data` member other than `null` decodes to the zero
page. -/
theorem goUnmarshal_no_data (members : List (String × Json)) (r : QueryRespAll)
    (hno : ∀ kv ∈ members, findField envelopeFields kv.1 = some .data → kv.2.isNull = true)
    (hdec : goUnmarshal (some (.obj members)) = some r) : r.Data = QueryResp.zero := by
  simp only [goUnmarshal] at hdec
  cases hx : decodeEnvelopeMembers QueryRespAll.zero [] members with
  | none => simp [hx] at hdec
  | some x =>
    simp only [hx, Option.some.injEq] at hdec
    rw [← hdec]
    exact decodeEnvelopeMembers_no_data members QueryRespAll.zero [] x hno hx

/-- The result of `GetCredential` on a body that does not decode. -/
theorem GetCredential_undecodable {σ Body : Type} (lib : Lib Body) (a : Client σ Body)
    (accessKey : String) (hurl : lib.urlErr a.iamEndpoint = none) (s : σ) (b : Body)
    (hres : (a.httpClient s (credentialRequest a accessKey)).1 = .response 200 (.data b))
    (hb : lib.unmarshal b = none) :
    GetCredential lib a s accessKey =
      { out := .returned Credential.zero (some (.errorsNew "Decode QueryHistoryResp failed"))
        sent := [credentialRequest a accessKey] } := by
  unfold GetCredential
  simp only [credentialRequest_build lib a accessKey hurl, credentialRequest_headers]
  rcases h : a.httpClient s (credentialRequest a accessKey) with ⟨res, s1⟩
  rw [h] at hres
  simp only at hres; subst hres
  simp [hb]

theorem accumulated_ne_nil (pages : List QueryRespAll)
    (h : ∃ r ∈ pages, r.Data.AccessKeySet ≠ []) : accumulated pages ≠ [] := by
  induction pages with
  | nil => simp at h
  | cons p rest ih =>
    obtain ⟨r, hr, hne⟩ := h
    unfold accumulated
    rcases List.mem_cons.mp hr with heq | hmem
    · subst heq
      simp [hne]
    · have := ih ⟨r, hmem, hne⟩
      simp [this]

/-! ## Claims -/

/-- C1. Pagination completeness of `GetKeysByUid`: against a transport that
answers every request of offset `o` with HTTP 200, `retCode` 0, `total = N`,
`offset = o` and the records `R[o .. min (o + P) N)`, where `P ≥ 1` and `R`
holds `N` records, `GetKeysByUid` returns no error and exactly `N`
credentials as soon as it may run for `max 1 (ceil (N / P))` iterations; the
`i`-th has `UserId = projectId`, `DisplayName = name`, `AccessKeyID =
accessKey`, `SecretAccessKey = accessSecret` of `R[i]` and
`AllowOtherUserAccess = false`. -/
theorem GetKeysByUid_complete {σ Body : Type} (lib : Lib Body) (a : Client σ Body)
    (uid : String) (R : List AccessKeyItem) (P : Nat) (s : σ) (fuel : Nat)
    (hP : 1 ≤ P) (hN : (R.length : Int) < 9223372036854775808)
    (hurl : lib.urlErr a.iamEndpoint = none)
    (hT : ∀ (t : σ) (req : Request), 0 ≤ req.body.offsetValue →
      ∃ r, PageOk lib (a.httpClient t req).1 r ∧ r.Data.Total = R.length ∧
        r.Data.Offset = req.body.offsetValue ∧
        r.Data.AccessKeySet = (R.drop req.body.offsetValue.toNat).take P)
    (hfuel : pageCount R.length P ≤ fuel) :
    (GetKeysByUid lib a fuel s uid).map Run.out =
      some (.returned
        (R.map (fun record =>
          ({ UserId := record.ProjectId
             DisplayName := record.Name
             AccessKeyID := record.AccessKey
             SecretAccessKey := record.AccessSecret
             AllowOtherUserAccess := false } : Credential)))
        none) := by
  obtain ⟨h1, h2, h3⟩ := pageCount_spec R.length P hP
  have h := loop_paged lib a uid R P hP hN hurl hT (pageCount R.length P) 0 s [] [] fuel h1
    (Nat.zero_le _) (by omega) (by intro h; have := h3 h; omega) hfuel
  unfold GetKeysByUid
  simp only [Nat.cast_zero] at h
  rw [h]
  simp only [List.nil_append, List.drop_zero, Option.map_some']
  rfl

/-- Witness of C1: three records served in pages of two. -/
theorem GetKeysByUid_complete_witness :
    (GetKeysByUid plainLib
        (pagedClient
          [{ ProjectId := "p0", Name := "n0", AccessKey := "k0", AccessSecret := "s0",
             Status := "active", Updated := "u0" },
           { ProjectId := "p1", Name := "n1", AccessKey := "k1", AccessSecret := "s1",
             Status := "active", Updated := "u1" },
           { ProjectId := "p2", Name := "n2", AccessKey := "k2", AccessSecret := "s2",
             Status := "disabled", Updated := "u2" }] 2) 2 () "u1").map Run.out =
      some (.returned
        [{ UserId := "p0", DisplayName := "n0", AccessKeyID := "k0", SecretAccessKey := "s0",
           AllowOtherUserAccess := false },
         { UserId := "p1", DisplayName := "n1", AccessKeyID := "k1", SecretAccessKey := "s1",
           AllowOtherUserAccess := false },
         { UserId := "p2", DisplayName := "n2", AccessKeyID := "k2", SecretAccessKey := "s2",
           AllowOtherUserAccess := false }] none) :=
  GetKeysByUid_complete plainLib _ "u1"
    [{ ProjectId := "p0", Name := "n0", AccessKey := "k0", AccessSecret := "s0",
       Status := "active", Updated := "u0" },
     { ProjectId := "p1", Name := "n1", AccessKey := "k1", AccessSecret := "s1",
       Status := "active", Updated := "u1" },
     { ProjectId := "p2", Name := "n2", AccessKey := "k2", AccessSecret := "s2",
       Status := "disabled", Updated := "u2" }] 2 () 2 (by decide) (by decide) rfl
    (fun t req _ => pagedClient_serves _ 2 t req) (by decide)

/-- C9. Cursor sequence of `GetKeysByUid` against the well-behaved transport
of `N` records and page size `P ≥ 1`: exactly `max 1 (ceil (N / P))` requests
are issued; each carries the action `DescribeAccessKeys` and the identity
`uid`; the `k`-th carries the offset `k * P`; and the `k`-th iteration starts
with the cursor at `k * P` and with exactly the first `k * P` records
accumulated. -/
theorem GetKeysByUid_cursors {σ Body : Type} (lib : Lib Body) (a : Client σ Body)
    (uid : String) (R : List AccessKeyItem) (P : Nat) (s : σ)
    (hP : 1 ≤ P) (hN : (R.length : Int) < 9223372036854775808)
    (hurl : lib.urlErr a.iamEndpoint = none)
    (hT : ∀ (t : σ) (req : Request), 0 ≤ req.body.offsetValue →
      ∃ r, PageOk lib (a.httpClient t req).1 r ∧ r.Data.Total = R.length ∧
        r.Data.Offset = req.body.offsetValue ∧
        r.Data.AccessKeySet = (R.drop req.body.offsetValue.toNat).take P) :
    (∃ run, (∀ fuel, pageCount R.length P ≤ fuel → GetKeysByUid lib a fuel s uid = some run) ∧
      run.out = .returned (R.map credentialOf) none ∧
      run.sent.length = pageCount R.length P ∧
      run.sent.map (fun q => q.body.offsetValue) =
        (List.range (pageCount R.length P)).map (fun k => ((k * P : Nat) : Int)) ∧
      ∀ q ∈ run.sent, q.method = "POST" ∧ q.body.action = "DescribeAccessKeys" ∧
        q.body.projectIdValue = uid) ∧
    (∀ k, k < pageCount R.length P → ∃ t, ∀ fuel,
      GetKeysByUid lib a (k + fuel) s uid =
        GetKeysByUid.loop lib a uid fuel t ((k * P : Nat) : Int)
          ((R.take (k * P)).map credentialOf)
          ((List.range k).map (fun j => keysRequest a uid ((j * P : Nat) : Int))) ∧
      ((R.take (k * P)).map credentialOf).length = k * P) := by
  obtain ⟨h1, h2, h3⟩ := pageCount_spec R.length P hP
  constructor
  · refine ⟨Run.mk (.returned (R.map credentialOf) none)
        ([] ++ (List.range (pageCount R.length P)).map
          (fun k => keysRequest a uid ((0 + k * P : Nat) : Int))),
      fun fuel hfuel => ?_, rfl, by simp, ?_, ?_⟩
    · have h := loop_paged lib a uid R P hP hN hurl hT (pageCount R.length P) 0 s [] [] fuel h1
        (Nat.zero_le _) (by omega) (by intro h; have := h3 h; omega) hfuel
      unfold GetKeysByUid
      simp only [Nat.cast_zero] at h
      rw [h]
      simp
    · simp [List.map_map, Function.comp, keysRequest_offsetValue]
    · intro q hq
      simp only [List.nil_append, List.mem_map, List.mem_range] at hq
      obtain ⟨k, _, rfl⟩ := hq
      refine ⟨rfl, rfl, ?_⟩
      unfold keysRequest marshal Wire.projectIdValue
      by_cases hu : uid = "" <;> simp [hu]
  · intro k hk
    have hkP : k = 0 ∨ 0 + k * P < R.length := by
      rcases Nat.eq_zero_or_pos k with h | h
      · exact Or.inl h
      · right
        have hs : (pageCount R.length P - 1) * P = pageCount R.length P * P - P :=
          Nat.sub_one_mul _ P
        have hle : k * P ≤ (pageCount R.length P - 1) * P :=
          Nat.mul_le_mul_right P (by omega)
        have := h3 (by omega)
        omega
    obtain ⟨t, ht⟩ := loop_paged_front lib a uid R P hP hN hurl hT k 0 s [] [] hkP
    refine ⟨t, fun fuel => ⟨?_, ?_⟩⟩
    · have h := ht fuel
      unfold GetKeysByUid
      simp only [Nat.cast_zero, Nat.zero_add, List.drop_zero, List.nil_append] at h
      simpa using h
    · rw [List.length_map, List.length_take]
      have hle : k * P ≤ (pageCount R.length P - 1) * P ∨ k = 0 := by
        rcases Nat.eq_zero_or_pos k with h | h
        · exact Or.inr h
        · exact Or.inl (Nat.mul_le_mul_right P (by omega))
      rcases hkP with h | h
      · subst h; simp
      · omega

/-- Witness of C9: five records in pages of two are fetched with exactly
three requests, at the offsets 0, 2 and 4. -/
theorem GetKeysByUid_cursors_witness :
    ∃ run, GetKeysByUid plainLib (pagedClient ([0, 1, 2, 3, 4].map sampleItem) 2) 3 () "u1"
        = some run ∧
      run.out = .returned (([0, 1, 2, 3, 4].map sampleItem).map credentialOf) none ∧
      run.sent.length = 3 ∧
      run.sent.map (fun q => q.body.offsetValue) = [0, 2, 4] := by
  obtain ⟨⟨run, hrun, hout, hlen, hoffs, _⟩, _⟩ :=
    GetKeysByUid_cursors plainLib (pagedClient ([0, 1, 2, 3, 4].map sampleItem) 2) "u1"
      ([0, 1, 2, 3, 4].map sampleItem) 2 () (by decide) (by decide) rfl
      (fun t req _ => pagedClient_serves _ 2 t req)
  exact ⟨run, hrun 3 (by decide), hout, hlen.trans (by decide), hoffs.trans (by decide)⟩

/-- C2, as the code has it. When the transport has served the successive
non-final pages `pages` and the next page fails (transport error, status
other than 200, body read error, decode error or `retCode` other than 0),
`GetKeysByUid` returns that error together with the credentials accumulated
from `pages`, every error path being `return credentials, err`; when those
pages hold at least one record the list returned is not empty. -/
theorem GetKeysByUid_error_returns_accumulated {σ Body : Type} (lib : Lib Body)
    (a : Client σ Body) (uid : String) (s : σ) (pages : List QueryRespAll) (t : σ)
    (offset : Int) (e : GoError) (fuel : Nat)
    (hurl : lib.urlErr a.iamEndpoint = none)
    (hserved : ServesPages lib a uid s 0 pages t offset)
    (hfail : PageFailsWith lib (a.httpClient t (keysRequest a uid offset)).1 e)
    (hfuel : pages.length + 1 ≤ fuel) :
    (GetKeysByUid lib a fuel s uid).map Run.out =
      some (.returned (accumulated pages) (some e)) ∧
    ((∃ r ∈ pages, r.Data.AccessKeySet ≠ []) → accumulated pages ≠ []) := by
  refine ⟨?_, accumulated_ne_nil pages⟩
  rw [GetKeysByUid_fails_after lib a uid hurl s pages t offset e fuel hserved hfail hfuel]
  rfl

/-- Witness of C2: one page of one record, then a transport error. -/
theorem GetKeysByUid_error_returns_accumulated_witness :
    (GetKeysByUid plainLib scripted 2
        [.response 200 (.data firstOfTwo), .err (.library "connection refused")] "u1").map
      Run.out =
      some (.returned
        [{ UserId := "p", DisplayName := "n", AccessKeyID := "0", SecretAccessKey := "s",
           AllowOtherUserAccess := false }]
        (some (.library "connection refused"))) ∧
    accumulated [firstOfTwo] ≠ [] :=
  ⟨(GetKeysByUid_error_returns_accumulated plainLib scripted "u1"
      [.response 200 (.data firstOfTwo), .err (.library "connection refused")] [firstOfTwo]
      [.err (.library "connection refused")] 1 (.library "connection refused") 2 rfl
      ⟨⟨firstOfTwo, rfl, rfl, rfl⟩, by decide, rfl, by decide⟩ (Or.inl rfl) (by decide)).1,
   (GetKeysByUid_error_returns_accumulated plainLib scripted "u1"
      [.response 200 (.data firstOfTwo), .err (.library "connection refused")] [firstOfTwo]
      [.err (.library "connection refused")] 1 (.library "connection refused") 2 rfl
      ⟨⟨firstOfTwo, rfl, rfl, rfl⟩, by decide, rfl, by decide⟩ (Or.inl rfl) (by decide)).2
     ⟨firstOfTwo, List.mem_singleton.mpr rfl, by decide⟩⟩

/-- Counterexample to C2 as stated: page 1 succeeds with one record and
page 2 fails with a transport error; the caller gets the error together
with the credential of page 1, not an empty list. -/
theorem GetKeysByUid_not_all_or_nothing :
    (GetKeysByUid plainLib scripted 5
        [.response 200 (.data firstOfTwo), .err (.library "connection refused")] "u1").map
      Run.out =
      some (.returned [credentialOf (sampleItem 0)] (some (.library "connection refused"))) ∧
    [credentialOf (sampleItem 0)] ≠ [] := by
  decide

/-- C3. Single key lookup: on an HTTP 200 answer that decodes with `retCode`
0, `GetCredential` returns `ErrAccessKeyNotExist` and a zero-valued
credential when the page reports `total = 0`, and returns no error and the
credential mapped from the first record when the page reports `total = 1`
and holds that record. -/
theorem GetCredential_lookup {σ Body : Type} (lib : Lib Body) (a : Client σ Body) (s : σ)
    (accessKey : String) (r : QueryRespAll)
    (hurl : lib.urlErr a.iamEndpoint = none)
    (hok : PageOk lib (a.httpClient s (credentialRequest a accessKey)).1 r) :
    (r.Data.Total = 0 →
      (GetCredential lib a s accessKey).out =
        .returned Credential.zero (some .ErrAccessKeyNotExist)) ∧
    (∀ item rest, r.Data.Total = 1 → r.Data.AccessKeySet = item :: rest →
      (GetCredential lib a s accessKey).out =
        .returned
          { UserId := item.ProjectId, DisplayName := item.Name, AccessKeyID := item.AccessKey,
            SecretAccessKey := item.AccessSecret, AllowOtherUserAccess := false } none) := by
  rw [GetCredential_page lib a accessKey hurl s r hok]
  constructor
  · intro h0
    simp [h0]
  · intro item rest h1 hset
    simp [h1, hset]

/-- Witness of C3: a service holding no record answers `total = 0`, a
service holding one record answers `total = 1` with that record. -/
theorem GetCredential_lookup_witness :
    (GetCredential plainLib (pagedClient [] 2) () "0").out =
      .returned Credential.zero (some .ErrAccessKeyNotExist) ∧
    (GetCredential plainLib (pagedClient [sampleItem 0] 2) () "0").out =
      .returned
        { UserId := "p", DisplayName := "n", AccessKeyID := "0", SecretAccessKey := "s",
          AllowOtherUserAccess := false } none :=
  ⟨(GetCredential_lookup plainLib (pagedClient [] 2) () "0" (servedPage [] 2 0) rfl
      ⟨_, rfl, rfl, rfl⟩).1 rfl,
   (GetCredential_lookup plainLib (pagedClient [sampleItem 0] 2) () "0"
      (servedPage [sampleItem 0] 2 0) rfl ⟨_, rfl, rfl, rfl⟩).2 (sampleItem 0) [] rfl rfl⟩

/-- C6. Remote rejection, for a client whose endpoint parses. Whenever the
answer to `GetCredential` has a status other than 200, or has status 200
and decodes with a `retCode` other than 0, `GetCredential` returns an error
and a zero-valued credential. Whenever the answer to a request of
`GetKeysByUid` is such a rejection, after any pages served, `GetKeysByUid`
returns an error with exactly the credentials of the pages served before:
no record of the rejected response becomes a credential. -/
theorem rejected_response_yields_no_credential {σ Body : Type} (lib : Lib Body)
    (a : Client σ Body) (hurl : lib.urlErr a.iamEndpoint = none) :
    (∀ (s : σ) (accessKey : String),
      PageRejected lib (a.httpClient s (credentialRequest a accessKey)).1 →
      ∃ e, GetCredential lib a s accessKey =
        { out := .returned Credential.zero (some e)
          sent := [credentialRequest a accessKey] }) ∧
    (∀ (s : σ) (uid : String) (pages : List QueryRespAll) (t : σ) (offset : Int)
      (fuel : Nat),
      ServesPages lib a uid s 0 pages t offset →
      PageRejected lib (a.httpClient t (keysRequest a uid offset)).1 →
      pages.length + 1 ≤ fuel →
      ∃ e, (GetKeysByUid lib a fuel s uid).map Run.out =
        some (.returned (accumulated pages) (some e))) := by
  constructor
  · intro s accessKey hrej
    exact GetCredential_rejected lib a accessKey hurl s hrej
  · intro s uid pages t offset fuel hserved hrej hfuel
    obtain ⟨e, he⟩ := hrej.fails
    refine ⟨e, ?_⟩
    rw [GetKeysByUid_fails_after lib a uid hurl s pages t offset e fuel hserved he hfuel]
    rfl

/-- Witness of C6: a 503 for the key lookup; for the enumeration one good
page and then a 200 whose `retCode` is 7 although it carries a record. -/
theorem rejected_response_yields_no_credential_witness :
    (∃ e, GetCredential plainLib scripted [.response 503 (.data firstOfTwo)] "0" =
      { out := .returned Credential.zero (some e)
        sent := [credentialRequest scripted "0"] }) ∧
    (∃ e, (GetKeysByUid plainLib scripted 2
        [.response 200 (.data firstOfTwo),
         .response 200 (.data { firstOfTwo with RetCode := 7 })] "u1").map Run.out =
      some (.returned (accumulated [firstOfTwo]) (some e))) :=
  ⟨(rejected_response_yields_no_credential plainLib scripted rfl).1
      [.response 503 (.data firstOfTwo)] "0" (Or.inl ⟨503, _, rfl, by decide⟩),
   (rejected_response_yields_no_credential plainLib scripted rfl).2
      [.response 200 (.data firstOfTwo), .response 200 (.data { firstOfTwo with RetCode := 7 })]
      "u1" [firstOfTwo] [.response 200 (.data { firstOfTwo with RetCode := 7 })] 1 2
      ⟨⟨firstOfTwo, rfl, rfl, rfl⟩, by decide, rfl, by decide⟩
      (Or.inr ⟨_, _, rfl, rfl, by decide⟩) (by decide)⟩

/-- C10, as the code has it. The loop has no check of `offset + len <=
total`: when, after the pages served, an HTTP 200, `retCode` 0 page reports
`total < offset + len(accessKeySet)` (the sum being within the range of
`int`), `GetKeysByUid` takes it for the last page, appends its records and
returns the whole list with a nil error. -/
theorem GetKeysByUid_overfull_page_accepted {σ Body : Type} (lib : Lib Body)
    (a : Client σ Body) (uid : String) (s : σ) (pages : List QueryRespAll) (t : σ)
    (offset : Int) (r : QueryRespAll) (fuel : Nat)
    (hurl : lib.urlErr a.iamEndpoint = none)
    (hserved : ServesPages lib a uid s 0 pages t offset)
    (hok : PageOk lib (a.httpClient t (keysRequest a uid offset)).1 r)
    (hlo : -9223372036854775808 ≤ r.Data.Offset)
    (hhi : r.Data.Offset + (r.Data.AccessKeySet.length : Int) < 9223372036854775808)
    (hviol : r.Data.Total < r.Data.Offset + (r.Data.AccessKeySet.length : Int))
    (hfuel : pages.length + 1 ≤ fuel) :
    (GetKeysByUid lib a fuel s uid).map Run.out =
      some (.returned (accumulated pages ++ r.Data.AccessKeySet.map credentialOf) none) := by
  obtain ⟨f, rfl⟩ : ∃ f, fuel = pages.length + (f + 1) := ⟨fuel - pages.length - 1, by omega⟩
  have hnext : nextOffset r = r.Data.Offset + (r.Data.AccessKeySet.length : Int) := by
    unfold nextOffset
    rw [wrapInt_of_range] <;> omega
  unfold GetKeysByUid
  rw [loop_served lib a uid hurl pages s 0 [] [] t offset (f + 1) hserved,
    loop_page lib a uid hurl f t offset _ _ r hok, hnext, if_neg (by omega)]
  simp

/-- Witness of C10: a first page with one record, offset 0 and total 0. -/
theorem GetKeysByUid_overfull_page_accepted_witness :
    (GetKeysByUid plainLib scripted 1 [.response 200 (.data overfullPage)] "u1").map Run.out =
      some (.returned (accumulated [] ++ overfullPage.Data.AccessKeySet.map credentialOf) none) :=
  GetKeysByUid_overfull_page_accepted plainLib scripted "u1"
    [.response 200 (.data overfullPage)] [] [.response 200 (.data overfullPage)] 0
    overfullPage 1 rfl ⟨rfl, rfl⟩ ⟨_, rfl, rfl, rfl⟩ (by decide) (by decide) (by decide)
    (by decide)

/-- Counterexample to C10 as stated: the page holds one record at offset 0
and reports `total = 0`, so `offset + len > total`; `GetKeysByUid` returns
the credential of that record and a nil error, not a protocol error. -/
theorem GetKeysByUid_no_invariant_check :
    overfullPage.Data.Total <
      overfullPage.Data.Offset + (overfullPage.Data.AccessKeySet.length : Int) ∧
    (GetKeysByUid plainLib scripted 3 [.response 200 (.data overfullPage)] "u1").map Run.out =
      some (.returned [credentialOf (sampleItem 0)] none) := by
  decide

/-- C5, as the code has it. The loop has no guard against a server that
makes no progress. It ends whenever the transport never hangs and every
successful page that is not the last one (`offset + len(accessKeySet) <
total`) reports a next cursor `offset + len(accessKeySet)` above the offset
of the request it answers and a total of at most `T`: `GetKeysByUid` then
ends (returns or panics) after at most `max T 0 + 1` requests. -/
theorem GetKeysByUid_terminates_under_progress {σ Body : Type} (lib : Lib Body)
    (a : Client σ Body) (uid : String) (s : σ) (T : Int) (fuel : Nat)
    (hnohang : ∀ (t : σ) (req : Request), (a.httpClient t req).1 ≠ .hang)
    (hprog : ∀ (t : σ) (req : Request) (r : QueryRespAll),
      0 ≤ req.body.offsetValue → req.body.offsetValue < 9223372036854775808 →
      PageOk lib (a.httpClient t req).1 r → nextOffset r < r.Data.Total →
        req.body.offsetValue < nextOffset r ∧ r.Data.Total ≤ T)
    (hfuel : T.toNat + 1 ≤ fuel) :
    ∃ run, GetKeysByUid lib a fuel s uid = some run ∧ run.out ≠ .blocked ∧
      run.sent.length ≤ T.toNat + 1 := by
  obtain ⟨run, hrun, hout, hlen⟩ :=
    loop_terminates lib a uid T hnohang hprog fuel s 0 [] [] (le_refl _) (by decide)
      (by simpa using hfuel)
  refine ⟨run, hrun, hout, ?_⟩
  simpa using hlen

/-- Witness of C5: the simulated service with three records in pages of
two. -/
theorem GetKeysByUid_terminates_under_progress_witness :
    ∃ run, GetKeysByUid plainLib (pagedClient ([0, 1, 2].map sampleItem) 2) 4 () "u1"
        = some run ∧ run.out ≠ .blocked ∧ run.sent.length ≤ (3 : Int).toNat + 1 :=
  GetKeysByUid_terminates_under_progress plainLib (pagedClient ([0, 1, 2].map sampleItem) 2)
    "u1" () 3 4 (fun _ _ h => by simp [pagedClient] at h)
    (fun t req r hlo hhi hok hlt =>
      pagedClient_progress ([0, 1, 2].map sampleItem) 2 (by decide) (by decide) t req r hlo
        hhi hok hlt)
    (by decide)

/-- Counterexample to C5 as stated: against a transport that answers every
request with HTTP 200, `retCode` 0, no record, offset 0 and total 1, the
loop never ends, whatever the number of iterations it may run; no protocol
error is returned. -/
theorem GetKeysByUid_loops_on_stuck_server :
    ¬ ∃ fuel, (GetKeysByUid plainLib stuckClient fuel () "u1").isSome = true := by
  rintro ⟨fuel, h⟩
  unfold GetKeysByUid at h
  rw [stuck_loop] at h
  simp at h

/-- C7, the defect. `GetKeysByUid` sets the headers `X-Le-Key` and
`X-Le-Secret` to the literals `key` and `secret`, not to the `iamKey` and
`iamSecret` of the client, and sets no `content-type`; `GetCredential` sets
all three as the claim says. -/
theorem GetKeysByUid_headers_not_from_client :
    (pagedClient [] 1).iamKey = "AK" ∧ (pagedClient [] 1).iamSecret = "SK" ∧
    (GetKeysByUid plainLib (pagedClient [] 1) 1 () "u1").map
      (fun run => run.sent.map (fun q =>
        (q.method, q.url, q.headerGet "X-Le-Key", q.headerGet "X-Le-Secret",
          q.headerGet "content-type"))) =
      some [("POST", "http://iam.example/query", "key", "secret", "")] ∧
    (GetCredential plainLib (pagedClient [] 1) () "0").sent.map
      (fun q => (q.method, q.url, q.headerGet "X-Le-Key", q.headerGet "X-Le-Secret",
        q.headerGet "content-type")) =
      [("POST", "http://iam.example/query", "AK", "SK", "application/json")] := by
  decide

/-- C8, the defect. When `Do` never returns, `GetKeysByUid` and
`GetCredential` stay blocked in it and return nothing; the request of
`GetKeysByUid` carries no deadline at all, that of `GetCredential` the
10-second context. -/
theorem blocked_when_transport_hangs :
    GetKeysByUid plainLib hangingClient 1 () "u1" =
      some { out := .blocked, sent := [keysRequest hangingClient "u1" 0] } ∧
    (keysRequest hangingClient "u1" 0).timeout = none ∧
    GetCredential plainLib hangingClient () "0" =
      { out := .blocked, sent := [credentialRequest hangingClient "0"] } ∧
    (credentialRequest hangingClient "0").timeout = some 10 := by
  decide

/-- C4, as the code has it, for a client whose endpoint parses and an HTTP
200 body that is a JSON object. (1, 2) Whenever a `data` member is present
and is neither an object nor `null`, `json.Unmarshal` fails: `GetKeysByUid`
returns its decode error with no credential and `GetCredential` returns its
decode error with a zero-valued credential; neither panics. (3, 4) Whenever
the body decodes with `retCode` 0 and has no `data` member (or only `null`
ones), `Data` keeps its zero value: `GetKeysByUid` returns the empty list
with a nil error and `GetCredential` returns `ErrAccessKeyNotExist` with a
zero-valued credential. The four statements are independent of each
other. -/
theorem malformed_success_response {σ : Type} (urlErr : String → Option GoError)
    (a : Client σ (Option Json)) (hurl : urlErr a.iamEndpoint = none) :
    (∀ (s : σ) (uid : String) (fuel : Nat) (members : List (String × Json)) (key : String)
      (v : Json),
      (key, v) ∈ members → findField envelopeFields key = some .data →
      v.isObject = false → v.isNull = false →
      (a.httpClient s (keysRequest a uid 0)).1 = .response 200 (.data (some (.obj members))) →
      1 ≤ fuel →
      (GetKeysByUid (goLib urlErr) a fuel s uid).map Run.out =
        some (.returned [] (some (.errorsNew "Decode QueryRespAll failed")))) ∧
    (∀ (s : σ) (accessKey : String) (members : List (String × Json)) (key : String)
      (v : Json),
      (key, v) ∈ members → findField envelopeFields key = some .data →
      v.isObject = false → v.isNull = false →
      (a.httpClient s (credentialRequest a accessKey)).1 =
        .response 200 (.data (some (.obj members))) →
      (GetCredential (goLib urlErr) a s accessKey).out =
        .returned Credential.zero (some (.errorsNew "Decode QueryHistoryResp failed"))) ∧
    (∀ (s : σ) (uid : String) (fuel : Nat) (members : List (String × Json))
      (r : QueryRespAll),
      (∀ kv ∈ members, findField envelopeFields kv.1 = some .data → kv.2.isNull = true) →
      goUnmarshal (some (.obj members)) = some r → r.RetCode = 0 →
      (a.httpClient s (keysRequest a uid 0)).1 = .response 200 (.data (some (.obj members))) →
      1 ≤ fuel →
      (GetKeysByUid (goLib urlErr) a fuel s uid).map Run.out = some (.returned [] none)) ∧
    (∀ (s : σ) (accessKey : String) (members : List (String × Json)) (r : QueryRespAll),
      (∀ kv ∈ members, findField envelopeFields kv.1 = some .data → kv.2.isNull = true) →
      goUnmarshal (some (.obj members)) = some r → r.RetCode = 0 →
      (a.httpClient s (credentialRequest a accessKey)).1 =
        .response 200 (.data (some (.obj members))) →
      (GetCredential (goLib urlErr) a s accessKey).out =
        .returned Credential.zero (some .ErrAccessKeyNotExist)) := by
  refine ⟨?_, ?_, ?_, ?_⟩
  · intro s uid fuel members key v hmem hkey hobj hnull hres hfuel
    have hbad : (goLib urlErr).unmarshal (some (.obj members)) = none :=
      goUnmarshal_wrong_data members key v hmem hkey hobj hnull
    rw [GetKeysByUid_fails_after (goLib urlErr) a uid hurl s [] s 0 _ fuel ⟨rfl, rfl⟩
      (Or.inr (Or.inr (Or.inr (Or.inl ⟨_, hres, hbad, rfl⟩)))) (by simpa using hfuel)]
    rfl
  · intro s accessKey members key v hmem hkey hobj hnull hres
    have hbad : (goLib urlErr).unmarshal (some (.obj members)) = none :=
      goUnmarshal_wrong_data members key v hmem hkey hobj hnull
    rw [GetCredential_undecodable (goLib urlErr) a accessKey hurl s _ hres hbad]
  · intro s uid fuel members r hno hdec hret hres hfuel
    have hdata : r.Data = QueryResp.zero := goUnmarshal_no_data members r hno hdec
    have hnext : nextOffset r = 0 := by
      unfold nextOffset
      rw [hdata]
      decide
    have htotal : r.Data.Total = 0 := by rw [hdata]; rfl
    have hset : r.Data.AccessKeySet = [] := by rw [hdata]; rfl
    have hok : PageOk (goLib urlErr) (a.httpClient s (keysRequest a uid 0)).1 r :=
      ⟨_, hres, hdec, hret⟩
    obtain ⟨f, rfl⟩ : ∃ f, fuel = f + 1 := ⟨fuel - 1, by omega⟩
    unfold GetKeysByUid
    rw [loop_page (goLib urlErr) a uid hurl f s 0 [] [] r hok, hnext, htotal,
      if_neg (lt_irrefl _), hset]
    rfl
  · intro s accessKey members r hno hdec hret hres
    have hdata : r.Data = QueryResp.zero := goUnmarshal_no_data members r hno hdec
    have htotal : r.Data.Total = 0 := by rw [hdata]; rfl
    have hok : PageOk (goLib urlErr) (a.httpClient s (credentialRequest a accessKey)).1 r :=
      ⟨_, hres, hdec, hret⟩
    rw [GetCredential_page (goLib urlErr) a accessKey hurl s r hok, htotal]
    simp

/-- Witness of C4: a body whose `data` is a string, and a body that holds
`retCode` only. -/
theorem malformed_success_response_witness :
    (GetKeysByUid (goLib fun _ => none) scriptedJson 1
        [.response 200 (.data (some (.obj [("retCode", .int 0), ("data", .str "x")])))]
        "u1").map Run.out =
      some (.returned [] (some (.errorsNew "Decode QueryRespAll failed"))) ∧
    (GetCredential (goLib fun _ => none) scriptedJson
        [.response 200 (.data (some (.obj [("retCode", .int 0), ("data", .str "x")])))]
        "0").out =
      .returned Credential.zero (some (.errorsNew "Decode QueryHistoryResp failed")) ∧
    (GetKeysByUid (goLib fun _ => none) scriptedJson 1
        [.response 200 (.data (some (.obj [("retCode", .int 0)])))] "u1").map Run.out =
      some (.returned [] none) ∧
    (GetCredential (goLib fun _ => none) scriptedJson
        [.response 200 (.data (some (.obj [("retCode", .int 0)])))] "0").out =
      .returned Credential.zero (some .ErrAccessKeyNotExist) :=
  ⟨(malformed_success_response (fun _ => none) scriptedJson rfl).1
      [.response 200 (.data (some (.obj [("retCode", .int 0), ("data", .str "x")])))]
      "u1" 1 [("retCode", .int 0), ("data", .str "x")] "data" (.str "x")
      (by simp) (by decide) rfl rfl rfl (by decide),
   (malformed_success_response (fun _ => none) scriptedJson rfl).2.1
      [.response 200 (.data (some (.obj [("retCode", .int 0), ("data", .str "x")])))]
      "0" [("retCode", .int 0), ("data", .str "x")] "data" (.str "x")
      (by simp) (by decide) rfl rfl rfl,
   (malformed_success_response (fun _ => none) scriptedJson rfl).2.2.1
      [.response 200 (.data (some (.obj [("retCode", .int 0)])))]
      "u1" 1 [("retCode", .int 0)] QueryRespAll.zero
      (by
        intro kv hkv
        simp only [List.mem_singleton] at hkv
        subst hkv
        intro h
        exact absurd h (by decide))
      (by decide) rfl rfl (by decide),
   (malformed_success_response (fun _ => none) scriptedJson rfl).2.2.2
      [.response 200 (.data (some (.obj [("retCode", .int 0)])))]
      "0" [("retCode", .int 0)] QueryRespAll.zero
      (by
        intro kv hkv
        simp only [List.mem_singleton] at hkv
        subst hkv
        intro h
        exact absurd h (by decide))
      (by decide) rfl rfl⟩

/-- Counterexample to C4 as stated: the body is the object with the single
member `"retCode": 0`, so it has `retCode` 0 and no `data` member; `GetKeysByUid` returns the empty list with
a nil error and `GetCredential` returns `ErrAccessKeyNotExist`.  On a body
whose `data` holds `total` 1 and no `accessKeySet`, `GetCredential` panics
on `AccessKeySet[0]`. -/
theorem missing_data_looks_successful :
    (GetKeysByUid (goLib fun _ => none) scriptedJson 3
        [.response 200 (.data (some (.obj [("retCode", .int 0)])))] "u1").map Run.out =
      some (.returned [] none) ∧
    (GetCredential (goLib fun _ => none) scriptedJson
        [.response 200 (.data (some (.obj [("retCode", .int 0)])))] "0").out =
      .returned Credential.zero (some .ErrAccessKeyNotExist) ∧
    (GetCredential (goLib fun _ => none) scriptedJson
        [.response 200 (.data (some (.obj
          [("retCode", .int 0), ("data", .obj [("total", .int 1)])])))] "0").out =
      .panicked := by
  decide

end Wocloud
